import Mathlib

/-
  Verification of the lhttp2 HTTP/2 frame codec (src/frame.h).

  The repository ships only the class declarations (frame.h); the method
  bodies live in a translation unit that is not part of the repository.
  Following the header's data model, every frame record is embedded as a
  tagged value (a shared 9-octet header plus one of ten payload variants),
  and the encode/decode/update-length operations declared in frame.h are
  modelled from the specification's normative description of the wire
  format and of the receive/send algorithms.  Buffers are lists of octet
  values (naturals below 256); multi-byte integers are big-endian.
-/

namespace Lhttp2

/-- Modelled from the spec: `MAX_FRAME_SIZE` defaults to 16384 (the
settings object itself lives in `settings.h`, outside the repository). -/
def MAX_FRAME_SIZE : Nat := 16384

/-- Big-endian serialization of the low `k` octets of `n` (most significant
octet first), as the codec writes every multi-byte wire integer. -/
def beBytes : Nat → Nat → List Nat
  | 0, _ => []
  | k + 1, n => beBytes k (n / 256) ++ [n % 256]

/-- Big-endian read of a run of octets, as the codec reads every
multi-byte wire integer. -/
def readBE (l : List Nat) : Nat := l.foldl (fun a b => a * 256 + b) 0

/-- The ten frame types of `Frame::FRAME_TYPE` (frame.h, values 0..9). -/
inductive FRAME_TYPE
  | TYPE_DATA_FRAME
  | TYPE_HEADERS_FRAME
  | TYPE_PRIORITY_FRAME
  | TYPE_RST_STREAM_FRAME
  | TYPE_SETTINGS_FRAME
  | TYPE_PUSH_PROMISE_FRAME
  | TYPE_PING_FRAME
  | TYPE_GOAWAY_FRAME
  | TYPE_WINDOW_UPDATE_FRAME
  | TYPE_CONTINUATION_FRAME
  deriving DecidableEq, Repr

/-- The numeric value of each `FRAME_TYPE` enumerator (frame.h assigns
`TYPE_DATA_FRAME = 0` and the rest follow consecutively). -/
def FRAME_TYPE.toNat : FRAME_TYPE → Nat
  | .TYPE_DATA_FRAME => 0
  | .TYPE_HEADERS_FRAME => 1
  | .TYPE_PRIORITY_FRAME => 2
  | .TYPE_RST_STREAM_FRAME => 3
  | .TYPE_SETTINGS_FRAME => 4
  | .TYPE_PUSH_PROMISE_FRAME => 5
  | .TYPE_PING_FRAME => 6
  | .TYPE_GOAWAY_FRAME => 7
  | .TYPE_WINDOW_UPDATE_FRAME => 8
  | .TYPE_CONTINUATION_FRAME => 9

/-- The frame type denoted by a wire type octet; `none` for the unknown
values (everything outside 0..9). -/
def FRAME_TYPE.ofWire : Nat → Option FRAME_TYPE
  | 0 => some .TYPE_DATA_FRAME
  | 1 => some .TYPE_HEADERS_FRAME
  | 2 => some .TYPE_PRIORITY_FRAME
  | 3 => some .TYPE_RST_STREAM_FRAME
  | 4 => some .TYPE_SETTINGS_FRAME
  | 5 => some .TYPE_PUSH_PROMISE_FRAME
  | 6 => some .TYPE_PING_FRAME
  | 7 => some .TYPE_GOAWAY_FRAME
  | 8 => some .TYPE_WINDOW_UPDATE_FRAME
  | 9 => some .TYPE_CONTINUATION_FRAME
  | _ => none

/-- `Frame::FRAME_FLAG` values (frame.h). -/
def FLAG_ACK : Nat := 0x1
/-- `FLAG_END_STREAM` shares the value 0x1 with `FLAG_ACK` (frame.h). -/
def FLAG_END_STREAM : Nat := 0x1
/-- `FLAG_END_HEADERS` (frame.h). -/
def FLAG_END_HEADERS : Nat := 0x4
/-- `FLAG_PADDED` (frame.h). -/
def FLAG_PADDED : Nat := 0x8
/-- `FLAG_PRIORITY` (frame.h). -/
def FLAG_PRIORITY : Nat := 0x20

/-- Modelled from the spec: `Frame::has_flags` tests whether every bit of
the mask is set in the flags byte (the body is outside the repository). -/
def has_flags (fl m : Nat) : Bool := fl &&& m == m

/-- Modelled from the spec: `hpack::HeaderFieldRepresentation` (hpack.h is
outside the repository) is treated as an abstract header-field value. -/
abbrev HeaderFieldRepresentation := Nat

/-- Modelled from the spec: the HPACK table (`hpack::Table`, outside the
repository) is a black box exposing encode, decode and a capacity. -/
structure Table where
  enc : List HeaderFieldRepresentation → List Nat
  dec : List Nat → Option (List HeaderFieldRepresentation)
  capacity : Nat

/-- Two HPACK tables are mirrored with identical capacities: what one
encodes the other decodes back, and the encoder emits octets. -/
def Mirrored (t1 t2 : Table) : Prop :=
  t1.capacity = t2.capacity ∧
  (∀ l, t2.dec (t1.enc l) = some l) ∧
  (∀ l b, b ∈ t1.enc l → b < 256)

/-- The ten typed payload variants of frame.h, one per subclass of
`Frame`, holding exactly the fields each class declares. -/
inductive FramePayload
  | data (pad_length : Nat) (dataBytes : List Nat)
  | headers (pad_length : Nat) (exclusive : Bool) (stream_dependency : Nat)
      (weight : Nat) (header_list : List HeaderFieldRepresentation)
      (header_block_fragment : List Nat)
  | priority (exclusive : Bool) (stream_dependency : Nat) (weight : Nat)
  | rstStream (error_code : Nat)
  | settings (entries : List (Nat × Nat))
  | pushPromise (pad_length : Nat) (payload_reserved : Bool)
      (promised_stream_id : Nat) (header_block_fragment : List Nat)
  | ping (opaqueData : Nat)
  | goaway (payload_reserved : Bool) (last_stream_id : Nat) (error_code : Nat)
      (additional_debug_data : List Nat)
  | windowUpdate (payload_reserved : Bool) (window_size_increment : Nat)
  | continuation (header_block_fragment : List Nat)
  deriving DecidableEq, Repr

/-- A frame record: the shared header fields of class `Frame` (frame.h)
plus the typed payload.  `length` is the cached `length_` field,
authoritative only after `UpdateLength`. -/
structure Frame where
  flags : Nat
  stream_id : Nat
  reserved : Bool
  length : Nat
  payload : FramePayload
  deriving DecidableEq, Repr

/-- The `FRAME_TYPE` tag of a payload variant. -/
def frameType : FramePayload → FRAME_TYPE
  | .data _ _ => .TYPE_DATA_FRAME
  | .headers _ _ _ _ _ _ => .TYPE_HEADERS_FRAME
  | .priority _ _ _ => .TYPE_PRIORITY_FRAME
  | .rstStream _ => .TYPE_RST_STREAM_FRAME
  | .settings _ => .TYPE_SETTINGS_FRAME
  | .pushPromise _ _ _ _ => .TYPE_PUSH_PROMISE_FRAME
  | .ping _ => .TYPE_PING_FRAME
  | .goaway _ _ _ _ => .TYPE_GOAWAY_FRAME
  | .windowUpdate _ _ => .TYPE_WINDOW_UPDATE_FRAME
  | .continuation _ => .TYPE_CONTINUATION_FRAME

/-- Modelled from the spec: the error taxonomy of §7 (error.h is outside
the repository). -/
inductive FrameError
  | Truncated
  | FrameSizeError
  | MalformedPadding
  | ProtocolError
  | HpackError
  | UnknownType
  deriving DecidableEq, Repr

/-- Modelled from the spec: fatal-versus-non-fatal classification is fixed
per error kind; only `UnknownType` is non-fatal. -/
def FrameError.isFatal : FrameError → Bool
  | .UnknownType => false
  | _ => true

/-- The 31-bit field with its leading reserved/exclusive bit, as one
32-bit wire word. -/
def bitWord (b : Bool) (n : Nat) : Nat := (if b then 2 ^ 31 else 0) + n

/-- Modelled from the spec: the shared padding serializer of the DATA,
HEADERS and PUSH_PROMISE encoders — a leading pad-length octet and
trailing zero padding iff the PADDED flag is set. -/
def encodePadded (padded : Bool) (p : Nat) (body : List Nat) : List Nat :=
  if padded then beBytes 1 p ++ body ++ List.replicate p 0 else body

/-- Modelled from the spec: the SETTINGS payload serializer writes each
entry as a 16-bit identifier followed by a 32-bit value, big-endian. -/
def encodeSettings : List (Nat × Nat) → List Nat
  | [] => []
  | (i, v) :: rest => beBytes 2 i ++ beBytes 4 v ++ encodeSettings rest

/-- Modelled from the spec: the per-type `EncodeFramePayload` bodies
(outside the repository), serializing each payload variant per the RFC
7540 layouts quoted in frame.h; HEADERS re-encodes its header list
against the current HPACK table. -/
def EncodeFramePayload (f : Frame) (t : Table) : List Nat :=
  match f.payload with
  | .data p d => encodePadded (has_flags f.flags FLAG_PADDED) p d
  | .headers p e dep w hl _ =>
      encodePadded (has_flags f.flags FLAG_PADDED) p
        ((if has_flags f.flags FLAG_PRIORITY then
            beBytes 4 (bitWord e dep) ++ beBytes 1 w
          else []) ++ t.enc hl)
  | .priority e dep w => beBytes 4 (bitWord e dep) ++ beBytes 1 w
  | .rstStream ec => beBytes 4 ec
  | .settings entries => encodeSettings entries
  | .pushPromise p r pid frag =>
      encodePadded (has_flags f.flags FLAG_PADDED) p
        (beBytes 4 (bitWord r pid) ++ frag)
  | .ping od => beBytes 8 od
  | .goaway r lsid ec dbg => beBytes 4 (bitWord r lsid) ++ beBytes 4 ec ++ dbg
  | .windowUpdate r incr => beBytes 4 (bitWord r incr)
  | .continuation frag => frag

/-- Modelled from the spec: the per-type `UpdateLength` bodies (outside
the repository) recompute the cached `length_` from the payload layout. -/
def updateLengthVal (f : Frame) (t : Table) : Nat :=
  match f.payload with
  | .data p d => (if has_flags f.flags FLAG_PADDED then 1 + p else 0) + d.length
  | .headers p _ _ _ hl _ =>
      (if has_flags f.flags FLAG_PADDED then 1 + p else 0) +
      (if has_flags f.flags FLAG_PRIORITY then 5 else 0) + (t.enc hl).length
  | .priority _ _ _ => 5
  | .rstStream _ => 4
  | .settings entries => 6 * entries.length
  | .pushPromise p _ _ frag =>
      (if has_flags f.flags FLAG_PADDED then 1 + p else 0) + 4 + frag.length
  | .ping _ => 8
  | .goaway _ _ _ dbg => 8 + dbg.length
  | .windowUpdate _ _ => 4
  | .continuation frag => frag.length

/-- `Frame::UpdateLength`: store the recomputed payload length into the
record's cached `length_` field. -/
def UpdateLength (f : Frame) (t : Table) : Frame :=
  { f with length := updateLengthVal f t }

/-- Modelled from the spec: the 9-octet header serializer — 24-bit
length, type octet, flags octet, then the reserved bit over the 31-bit
stream identifier, all big-endian. -/
def serializeHeader (f : Frame) : List Nat :=
  beBytes 3 f.length ++ beBytes 1 (frameType f.payload).toNat ++
  beBytes 1 f.flags ++ beBytes 4 (bitWord f.reserved f.stream_id)

/-- Modelled from the spec: `Frame::EncodeFrame` — the payload serializer
runs (calling `UpdateLength`), then the header is serialized and the
payload appended. -/
def EncodeFrame (f : Frame) (t : Table) : List Nat :=
  serializeHeader (UpdateLength f t) ++ EncodeFramePayload (UpdateLength f t) t

/-- Modelled from the spec: the shared padding parser — with the PADDED
flag, the first payload octet is the pad length; fail with
`MalformedPadding` when it is at least the remaining payload length,
otherwise drop the trailing padding. -/
def decodePadding (padded : Bool) (buff : List Nat) :
    Except FrameError (Nat × List Nat) :=
  if padded then
    match buff with
    | [] => .error .Truncated
    | p :: rest =>
        if rest.length ≤ p then .error .MalformedPadding
        else .ok (p, rest.take (rest.length - p))
  else .ok (0, buff)

/-- Modelled from the spec: the SETTINGS payload parser reads raw
(identifier, value) pairs in order, preserving unknown identifiers. -/
def decodeSettings : List Nat → List (Nat × Nat)
  | a :: b :: c :: d :: e1 :: f1 :: rest =>
      (a * 256 + b, readBE [c, d, e1, f1]) :: decodeSettings rest
  | _ => []

/-- Modelled from the spec: the per-type `DecodeFramePayload` bodies
(outside the repository) — parse the payload octets of a frame of type
`ft` carrying flag byte `flags`, enforcing the fixed-size, settings
multiple-of-six, ACK, padding and window-increment rules of §4.4 and §7,
and delegating header block fragments of HEADERS to the HPACK table. -/
def DecodeFramePayload (ft : FRAME_TYPE) (flags : Nat) (buff : List Nat)
    (t : Table) : Except FrameError FramePayload :=
  match ft with
  | .TYPE_DATA_FRAME =>
      match decodePadding (has_flags flags FLAG_PADDED) buff with
      | .error err => .error err
      | .ok pr => .ok (.data pr.1 pr.2)
  | .TYPE_HEADERS_FRAME =>
      match decodePadding (has_flags flags FLAG_PADDED) buff with
      | .error err => .error err
      | .ok pr =>
          if has_flags flags FLAG_PRIORITY then
            if pr.2.length < 5 then .error .Truncated
            else
              match t.dec (pr.2.drop 5) with
              | none => .error .HpackError
              | some hl =>
                  .ok (.headers pr.1 (decide (2 ^ 31 ≤ readBE (pr.2.take 4)))
                    (readBE (pr.2.take 4) % 2 ^ 31) (readBE ((pr.2.drop 4).take 1))
                    hl (pr.2.drop 5))
          else
            match t.dec pr.2 with
            | none => .error .HpackError
            | some hl => .ok (.headers pr.1 false 0 0 hl pr.2)
  | .TYPE_PRIORITY_FRAME =>
      if buff.length ≠ 5 then .error .FrameSizeError
      else .ok (.priority (decide (2 ^ 31 ≤ readBE (buff.take 4)))
        (readBE (buff.take 4) % 2 ^ 31) (readBE ((buff.drop 4).take 1)))
  | .TYPE_RST_STREAM_FRAME =>
      if buff.length ≠ 4 then .error .FrameSizeError
      else .ok (.rstStream (readBE buff))
  | .TYPE_SETTINGS_FRAME =>
      if buff.length % 6 ≠ 0 then .error .FrameSizeError
      else if has_flags flags FLAG_ACK ∧ buff.length ≠ 0 then .error .ProtocolError
      else .ok (.settings (decodeSettings buff))
  | .TYPE_PUSH_PROMISE_FRAME =>
      match decodePadding (has_flags flags FLAG_PADDED) buff with
      | .error err => .error err
      | .ok pr =>
          if pr.2.length < 4 then .error .Truncated
          else .ok (.pushPromise pr.1 (decide (2 ^ 31 ≤ readBE (pr.2.take 4)))
            (readBE (pr.2.take 4) % 2 ^ 31) (pr.2.drop 4))
  | .TYPE_PING_FRAME =>
      if buff.length ≠ 8 then .error .FrameSizeError
      else .ok (.ping (readBE buff))
  | .TYPE_GOAWAY_FRAME =>
      if buff.length < 8 then .error .Truncated
      else .ok (.goaway (decide (2 ^ 31 ≤ readBE (buff.take 4)))
        (readBE (buff.take 4) % 2 ^ 31) (readBE ((buff.drop 4).take 4))
        (buff.drop 8))
  | .TYPE_WINDOW_UPDATE_FRAME =>
      if buff.length ≠ 4 then .error .FrameSizeError
      else if readBE buff % 2 ^ 31 = 0 then .error .ProtocolError
      else .ok (.windowUpdate (decide (2 ^ 31 ≤ readBE buff)) (readBE buff % 2 ^ 31))
  | .TYPE_CONTINUATION_FRAME => .ok (.continuation buff)

/-- The parsed fields of the 9-octet frame header. -/
structure FrameHeader where
  length : Nat
  typeByte : Nat
  flags : Nat
  reserved : Bool
  stream_id : Nat
  deriving DecidableEq, Repr

/-- Modelled from the spec: `parse_header` — read the 24-bit length, the
type and flags octets, and split the final 32-bit word into the reserved
bit and the 31-bit stream identifier; fewer than 9 octets fail. -/
def parseFrameHeader (bytes : List Nat) : Option FrameHeader :=
  if bytes.length < 9 then none
  else
    some
      { length := readBE (bytes.take 3)
        typeByte := readBE ((bytes.drop 3).take 1)
        flags := readBE ((bytes.drop 4).take 1)
        reserved := decide (2 ^ 31 ≤ readBE ((bytes.drop 5).take 4))
        stream_id := readBE ((bytes.drop 5).take 4) % 2 ^ 31 }

/-- Modelled from the spec: `Frame::RecvFrame` on an in-memory byte run —
parse the header, reject unknown types, enforce `MAX_FRAME_SIZE`, read
exactly `length` payload octets, and dispatch to the typed payload
decoder, attaching the header fields to the record on success. -/
def RecvFrame (bytes : List Nat) (t : Table) : Except FrameError Frame :=
  match parseFrameHeader bytes with
  | none => .error .Truncated
  | some h =>
      match FRAME_TYPE.ofWire h.typeByte with
      | none => .error .UnknownType
      | some ft =>
          if MAX_FRAME_SIZE < h.length then .error .FrameSizeError
          else if (bytes.drop 9).length < h.length then .error .Truncated
          else
            match DecodeFramePayload ft h.flags ((bytes.drop 9).take h.length) t with
            | .error err => .error err
            | .ok p =>
                .ok { flags := h.flags, stream_id := h.stream_id,
                      reserved := h.reserved, length := h.length, payload := p }

/-- `Frame::set_flags`: OR the mask into the flags byte. -/
def set_flags (f : Frame) (fl : Nat) : Frame := { f with flags := f.flags ||| fl }

/-- Modelled from the spec: `Frame::clear_flags` clears the masked bits
of the 8-bit flags byte. -/
def clear_flags (f : Frame) (fl : Nat) : Frame :=
  { f with flags := f.flags &&& (255 ^^^ fl) }

/-- `WindowUpdateFrame::set_window_size_increment`: the parameter is a
signed `int` (frame.h line 482), the stored field an unsigned 32-bit
`window_size_increment_`; the assignment reduces modulo 2^32. -/
def set_window_size_increment (f : Frame) (n : Int) : Frame :=
  match f.payload with
  | .windowUpdate r _ =>
      { f with payload := .windowUpdate r (Int.toNat (n % 2 ^ 32)) }
  | _ => f

/-- `WindowUpdateFrame::window_size_increment`: the stored 32-bit field. -/
def window_size_increment (f : Frame) : Nat :=
  match f.payload with
  | .windowUpdate _ incr => incr
  | _ => 0

/-- Well-formedness of a payload against the record's flag byte and the
HPACK table it will be encoded with: fields fit their wire widths, fields
guarded by an absent flag sit at their defaults, the cached header block
fragment is the table's encoding of the header list, a padded frame has
something besides its padding, and an ACK SETTINGS frame is empty. -/
abbrev PayloadWF (flags : Nat) (p : FramePayload) (t : Table) : Prop :=
  match p with
  | .data pad d =>
      pad < 256 ∧ (∀ b ∈ d, b < 256) ∧
      (has_flags flags FLAG_PADDED = false → pad = 0) ∧
      (has_flags flags FLAG_PADDED = true → 0 < d.length)
  | .headers pad e dep w hl frag =>
      pad < 256 ∧ dep < 2 ^ 31 ∧ w < 256 ∧ frag = t.enc hl ∧
      (has_flags flags FLAG_PADDED = false → pad = 0) ∧
      (has_flags flags FLAG_PRIORITY = false → e = false ∧ dep = 0 ∧ w = 0) ∧
      (has_flags flags FLAG_PADDED = true → has_flags flags FLAG_PRIORITY = false →
        t.enc hl ≠ [])
  | .priority _ dep w => dep < 2 ^ 31 ∧ w < 256
  | .rstStream ec => ec < 2 ^ 32
  | .settings entries =>
      (∀ ev ∈ entries, ev.1 < 2 ^ 16 ∧ ev.2 < 2 ^ 32) ∧
      (has_flags flags FLAG_ACK = true → entries = [])
  | .pushPromise pad _ pid frag =>
      pad < 256 ∧ pid < 2 ^ 31 ∧ (∀ b ∈ frag, b < 256) ∧
      (has_flags flags FLAG_PADDED = false → pad = 0)
  | .ping od => od < 2 ^ 64
  | .goaway _ lsid ec dbg => lsid < 2 ^ 31 ∧ ec < 2 ^ 32 ∧ (∀ b ∈ dbg, b < 256)
  | .windowUpdate _ incr => 0 < incr ∧ incr < 2 ^ 31
  | .continuation frag => ∀ b ∈ frag, b < 256

/-- A well-formed frame record relative to the table it is encoded with:
header fields fit their wire widths, the cached length is the recomputed
one, the payload respects `MAX_FRAME_SIZE`, and the payload is
well-formed. -/
abbrev WellFormedFor (f : Frame) (t : Table) : Prop :=
  f.flags < 256 ∧ f.stream_id < 2 ^ 31 ∧ f.length = updateLengthVal f t ∧
  f.length ≤ MAX_FRAME_SIZE ∧ PayloadWF f.flags f.payload t

theorem beBytes_length (k n : Nat) : (beBytes k n).length = k := by
  induction k generalizing n with
  | zero => simp [beBytes]
  | succ k ih => simp [beBytes, ih]

theorem beBytes_lt (k n : Nat) : ∀ b ∈ beBytes k n, b < 256 := by
  induction k generalizing n with
  | zero => simp [beBytes]
  | succ k ih =>
      intro b hb
      simp only [beBytes, List.mem_append, List.mem_singleton] at hb
      rcases hb with hb | hb
      · exact ih (n / 256) b hb
      · omega

theorem readBE_append_single (l : List Nat) (b : Nat) :
    readBE (l ++ [b]) = readBE l * 256 + b := by
  simp [readBE]

theorem readBE_beBytes (k n : Nat) : readBE (beBytes k n) = n % 256 ^ k := by
  induction k generalizing n with
  | zero => simp [beBytes, readBE, Nat.mod_one]
  | succ k ih =>
      rw [beBytes, readBE_append_single, ih]
      have h : 256 ^ (k + 1) = 256 * 256 ^ k := by ring
      rw [h, Nat.mod_mul]
      omega

theorem readBE_beBytes_of_lt (k n : Nat) (h : n < 256 ^ k) :
    readBE (beBytes k n) = n := by
  rw [readBE_beBytes, Nat.mod_eq_of_lt h]

theorem take_len_append (k : Nat) (l1 l2 : List Nat) (h : l1.length = k) :
    (l1 ++ l2).take k = l1 := by
  subst h; exact List.take_left l1 l2

theorem drop_len_append (k : Nat) (l1 l2 : List Nat) (h : l1.length = k) :
    (l1 ++ l2).drop k = l2 := by
  subst h; exact List.drop_left l1 l2

theorem encodeSettings_length (entries : List (Nat × Nat)) :
    (encodeSettings entries).length = 6 * entries.length := by
  induction entries with
  | nil => simp [encodeSettings]
  | cons ev rest ih =>
      obtain ⟨i, v⟩ := ev
      simp [encodeSettings, beBytes_length, ih]
      omega

theorem bitWord_lt (b : Bool) (n : Nat) (h : n < 2 ^ 31) :
    bitWord b n < 2 ^ 32 := by
  cases b <;> simp [bitWord] <;> omega

theorem bitWord_mod (b : Bool) (n : Nat) (h : n < 2 ^ 31) :
    bitWord b n % 2 ^ 31 = n := by
  cases b <;> simp [bitWord] <;> omega

theorem bitWord_top (b : Bool) (n : Nat) (h : n < 2 ^ 31) :
    decide (2 ^ 31 ≤ bitWord b n) = b := by
  cases b <;> simp [bitWord] <;> omega

theorem readBE_beBytes_four (r : Bool) (n : Nat) (h : n < 2 ^ 31) :
    readBE (beBytes 4 (bitWord r n)) = bitWord r n := by
  exact readBE_beBytes_of_lt 4 (bitWord r n) (bitWord_lt r n h)

theorem beBytes_one (n : Nat) (h : n < 256) : beBytes 1 n = [n] := by
  simp [beBytes, Nat.mod_eq_of_lt h]

theorem serializeHeader_length (f : Frame) : (serializeHeader f).length = 9 := by
  simp [serializeHeader, beBytes_length]

theorem EncodeFramePayload_length (f : Frame) (t : Table) :
    (EncodeFramePayload f t).length = updateLengthVal f t := by
  cases hp : f.payload with
  | data pad d =>
      by_cases hpad : has_flags f.flags FLAG_PADDED <;>
        simp [EncodeFramePayload, updateLengthVal, hp, encodePadded, hpad,
          beBytes_length] <;> omega
  | headers pad e dep w hl frag =>
      by_cases hpad : has_flags f.flags FLAG_PADDED <;>
        by_cases hpr : has_flags f.flags FLAG_PRIORITY <;>
          simp [EncodeFramePayload, updateLengthVal, hp, encodePadded, hpad, hpr,
            beBytes_length] <;> omega
  | priority e dep w => simp [EncodeFramePayload, updateLengthVal, hp, beBytes_length]
  | rstStream ec => simp [EncodeFramePayload, updateLengthVal, hp, beBytes_length]
  | settings entries =>
      simp [EncodeFramePayload, updateLengthVal, hp, encodeSettings_length]
  | pushPromise pad r pid frag =>
      by_cases hpad : has_flags f.flags FLAG_PADDED <;>
        simp [EncodeFramePayload, updateLengthVal, hp, encodePadded, hpad,
          beBytes_length] <;> omega
  | ping od => simp [EncodeFramePayload, updateLengthVal, hp, beBytes_length]
  | goaway r lsid ec dbg =>
      simp [EncodeFramePayload, updateLengthVal, hp, beBytes_length]
      omega
  | windowUpdate r incr =>
      simp [EncodeFramePayload, updateLengthVal, hp, beBytes_length]
  | continuation frag => simp [EncodeFramePayload, updateLengthVal, hp]

theorem decodePadding_encodePadded (p : Nat) (body : List Nat) (hp : p < 256)
    (hbody : body ≠ []) :
    decodePadding true (encodePadded true p body) = .ok (p, body) := by
  have hlen : 0 < body.length := List.length_pos.mpr hbody
  rw [encodePadded, if_pos rfl, beBytes_one p hp]
  show decodePadding true (p :: (body ++ List.replicate p 0)) = .ok (p, body)
  have hc : ¬ ((body ++ List.replicate p 0).length ≤ p) := by
    simp only [List.length_append, List.length_replicate]
    omega
  simp [decodePadding, hc, Nat.add_sub_cancel, List.take_left]
  exact hbody

theorem decodePadding_not_padded (buff : List Nat) :
    decodePadding false buff = .ok (0, buff) := by
  simp [decodePadding]

theorem readBE_singleton (b : Nat) : readBE [b] = b := by
  simp [readBE]

theorem decodeSettings_encodeSettings (entries : List (Nat × Nat))
    (h : ∀ ev ∈ entries, ev.1 < 2 ^ 16 ∧ ev.2 < 2 ^ 32) :
    decodeSettings (encodeSettings entries) = entries := by
  induction entries with
  | nil => simp [encodeSettings, decodeSettings]
  | cons ev rest ih =>
      obtain ⟨i, v⟩ := ev
      have hi : i < 2 ^ 16 := (h (i, v) (by simp)).1
      have hv : v < 2 ^ 32 := (h (i, v) (by simp)).2
      have hrest := fun ev hev => h ev (List.mem_cons_of_mem _ hev)
      have e2 : beBytes 2 i = [i / 256 % 256, i % 256] := by simp [beBytes]
      have e4 : beBytes 4 v =
          [v / 256 / 256 / 256 % 256, v / 256 / 256 % 256, v / 256 % 256, v % 256] := by
        simp [beBytes]
      rw [encodeSettings, e2, e4]
      simp only [List.cons_append, List.nil_append, decodeSettings]
      rw [show List.append ([] : List Nat) (encodeSettings rest) =
        encodeSettings rest from rfl]
      rw [ih hrest]
      congr 1
      have hone : i / 256 % 256 * 256 + i % 256 = i := by omega
      have htwo : readBE [v / 256 / 256 / 256 % 256, v / 256 / 256 % 256,
          v / 256 % 256, v % 256] = v := by
        simp [readBE]
        omega
      rw [hone, htwo]

theorem encodePadded_false (p : Nat) (body : List Nat) :
    encodePadded false p body = body := by
  simp [encodePadded]

theorem decode_encode_payload (f : Frame) (t1 t2 : Table)
    (hwf : PayloadWF f.flags f.payload t1) (hm : Mirrored t1 t2) :
    DecodeFramePayload (frameType f.payload) f.flags (EncodeFramePayload f t1) t2 =
      .ok f.payload := by
  obtain ⟨hcap, hdec, henc⟩ := hm
  obtain ⟨fl, sid, rsv, len, pl⟩ := f
  cases pl with
  | data pad d =>
      obtain ⟨hpad256, hd, hnopad, hpadpos⟩ := hwf
      cases hfl : has_flags fl FLAG_PADDED with
      | true =>
          have hdpos : 0 < d.length := hpadpos hfl
          have hdne : d ≠ [] := by
            intro h0; rw [h0] at hdpos; simp at hdpos
          simp only [frameType, EncodeFramePayload, DecodeFramePayload, hfl,
            decodePadding_encodePadded pad d hpad256 hdne]
      | false =>
          have hpad0 : pad = 0 := hnopad hfl
          subst hpad0
          simp only [frameType, EncodeFramePayload, DecodeFramePayload, hfl,
            encodePadded_false, decodePadding_not_padded]
  | headers pad e dep w hl frag =>
      obtain ⟨hpad256, hdep, hw, hfrag, hnopad, hnoprio, hne⟩ := hwf
      subst hfrag
      have h4 := beBytes_length 4 (bitWord e dep)
      have hW := readBE_beBytes_four e dep hdep
      have htop := bitWord_top e dep hdep
      have hmod := bitWord_mod e dep hdep
      have hdechl := hdec hl
      cases hpr : has_flags fl FLAG_PRIORITY with
      | true =>
          have hblock : (beBytes 4 (bitWord e dep) ++ beBytes 1 w).length = 5 := by
            simp only [List.length_append, beBytes_length]
          have hnotlt :
              ¬ ((beBytes 4 (bitWord e dep) ++ beBytes 1 w ++ t1.enc hl).length < 5) := by
            simp only [List.length_append, beBytes_length]
            omega
          have hdrop5 :
              (beBytes 4 (bitWord e dep) ++ beBytes 1 w ++ t1.enc hl).drop 5 =
              t1.enc hl := drop_len_append 5 _ _ hblock
          have htake4 :
              (beBytes 4 (bitWord e dep) ++ beBytes 1 w ++ t1.enc hl).take 4 =
              beBytes 4 (bitWord e dep) := by
            rw [List.append_assoc]
            exact take_len_append 4 _ _ h4
          have hdrop4 :
              (beBytes 4 (bitWord e dep) ++ beBytes 1 w ++ t1.enc hl).drop 4 =
              beBytes 1 w ++ t1.enc hl := by
            rw [List.append_assoc]
            exact drop_len_append 4 _ _ h4
          have htake1 : (beBytes 1 w ++ t1.enc hl).take 1 = [w] := by
            rw [beBytes_one w hw]
            exact take_len_append 1 [w] _ rfl
          cases hfl : has_flags fl FLAG_PADDED with
          | true =>
              have hbne : (beBytes 4 (bitWord e dep) ++ beBytes 1 w ++ t1.enc hl) ≠ [] := by
                intro h0
                have := congrArg List.length h0
                simp [beBytes_length] at this
              simp only [frameType, EncodeFramePayload, DecodeFramePayload, hfl, hpr,
                if_true, decodePadding_encodePadded _ _ hpad256 hbne, hnotlt, if_false,
                hdrop5, hdechl, htake4, hW, htop, hmod, hdrop4, htake1, readBE_singleton]
          | false =>
              have hpad0 : pad = 0 := hnopad hfl
              subst hpad0
              simp only [frameType, EncodeFramePayload, DecodeFramePayload, hfl, hpr,
                if_true, encodePadded_false, decodePadding_not_padded, hnotlt, if_false,
                hdrop5, hdechl, htake4, hW, htop, hmod, hdrop4, htake1, readBE_singleton]
      | false =>
          obtain ⟨he, hdep0, hw0⟩ := hnoprio hpr
          subst he; subst hdep0; subst hw0
          cases hfl : has_flags fl FLAG_PADDED with
          | true =>
              have hbne : t1.enc hl ≠ [] := hne hfl hpr
              simp only [frameType, EncodeFramePayload, DecodeFramePayload, hfl, hpr,
                Bool.false_eq_true, if_false, List.nil_append,
                decodePadding_encodePadded _ _ hpad256 hbne, hdechl]
          | false =>
              have hpad0 : pad = 0 := hnopad hfl
              subst hpad0
              simp only [frameType, EncodeFramePayload, DecodeFramePayload, hfl, hpr,
                Bool.false_eq_true, if_false, List.nil_append, encodePadded_false,
                decodePadding_not_padded, hdechl]
  | priority e dep w =>
      obtain ⟨hdep, hw⟩ := hwf
      have h4 := beBytes_length 4 (bitWord e dep)
      have hc : ¬ ((beBytes 4 (bitWord e dep) ++ beBytes 1 w).length ≠ 5) := by
        simp only [List.length_append, beBytes_length]
        omega
      have htake4 : (beBytes 4 (bitWord e dep) ++ beBytes 1 w).take 4 =
          beBytes 4 (bitWord e dep) := take_len_append 4 _ _ h4
      have hdrop4 : (beBytes 4 (bitWord e dep) ++ beBytes 1 w).drop 4 =
          beBytes 1 w := drop_len_append 4 _ _ h4
      have htake1 : (beBytes 1 w).take 1 = [w] := by
        simp [beBytes_one w hw]
      simp only [frameType, EncodeFramePayload, DecodeFramePayload, hc, if_false,
        htake4, hdrop4, htake1, readBE_beBytes_four e dep hdep,
        bitWord_top e dep hdep, bitWord_mod e dep hdep, readBE_singleton]
  | rstStream ec =>
      have hec : ec < 2 ^ 32 := hwf
      have hc : ¬ ((beBytes 4 ec).length ≠ 4) := by
        simp only [beBytes_length]
        omega
      simp only [frameType, EncodeFramePayload, DecodeFramePayload, hc, if_false,
        readBE_beBytes_of_lt 4 ec hec]
  | settings entries =>
      obtain ⟨hbounds, hack⟩ := hwf
      have hlen := encodeSettings_length entries
      cases hackfl : has_flags fl FLAG_ACK with
      | true =>
          have hent : entries = [] := hack hackfl
          subst hent
          simp [frameType, EncodeFramePayload, DecodeFramePayload, encodeSettings,
            decodeSettings]
      | false =>
          have hc1 : ¬ ((encodeSettings entries).length % 6 ≠ 0) := by
            rw [hlen]
            omega
          simp only [frameType, EncodeFramePayload, DecodeFramePayload, hc1, if_false,
            hackfl, Bool.false_eq_true, false_and,
            decodeSettings_encodeSettings entries hbounds]
  | pushPromise pad r pid frag =>
      obtain ⟨hpad256, hpid, hfragb, hnopad⟩ := hwf
      have h4 := beBytes_length 4 (bitWord r pid)
      have hc : ¬ ((beBytes 4 (bitWord r pid) ++ frag).length < 4) := by
        simp only [List.length_append, beBytes_length]
        omega
      have htake4 : (beBytes 4 (bitWord r pid) ++ frag).take 4 =
          beBytes 4 (bitWord r pid) := take_len_append 4 _ _ h4
      have hdrop4 : (beBytes 4 (bitWord r pid) ++ frag).drop 4 = frag :=
        drop_len_append 4 _ _ h4
      cases hfl : has_flags fl FLAG_PADDED with
      | true =>
          have hbne : (beBytes 4 (bitWord r pid) ++ frag) ≠ [] := by
            intro h0
            have := congrArg List.length h0
            simp [beBytes_length] at this
          simp only [frameType, EncodeFramePayload, DecodeFramePayload, hfl,
            decodePadding_encodePadded _ _ hpad256 hbne, hc, if_false, htake4, hdrop4,
            readBE_beBytes_four r pid hpid, bitWord_top r pid hpid,
            bitWord_mod r pid hpid]
      | false =>
          have hpad0 : pad = 0 := hnopad hfl
          subst hpad0
          simp only [frameType, EncodeFramePayload, DecodeFramePayload, hfl,
            encodePadded_false, decodePadding_not_padded, hc, if_false, htake4, hdrop4,
            readBE_beBytes_four r pid hpid, bitWord_top r pid hpid,
            bitWord_mod r pid hpid]
  | ping od =>
      have hod : od < 2 ^ 64 := hwf
      have hc : ¬ ((beBytes 8 od).length ≠ 8) := by
        simp only [beBytes_length]
        omega
      simp only [frameType, EncodeFramePayload, DecodeFramePayload, hc, if_false,
        readBE_beBytes_of_lt 8 od hod]
  | goaway r lsid ec dbg =>
      obtain ⟨hlsid, hec, hdbg⟩ := hwf
      have h4a := beBytes_length 4 (bitWord r lsid)
      have h4b := beBytes_length 4 ec
      have hc : ¬ ((beBytes 4 (bitWord r lsid) ++ beBytes 4 ec ++ dbg).length < 8) := by
        simp only [List.length_append, beBytes_length]
        omega
      have htake4 : (beBytes 4 (bitWord r lsid) ++ beBytes 4 ec ++ dbg).take 4 =
          beBytes 4 (bitWord r lsid) := by
        rw [List.append_assoc]
        exact take_len_append 4 _ _ h4a
      have hdrop4 : (beBytes 4 (bitWord r lsid) ++ beBytes 4 ec ++ dbg).drop 4 =
          beBytes 4 ec ++ dbg := by
        rw [List.append_assoc]
        exact drop_len_append 4 _ _ h4a
      have htake4b : (beBytes 4 ec ++ dbg).take 4 = beBytes 4 ec :=
        take_len_append 4 _ _ h4b
      have hdrop8 : (beBytes 4 (bitWord r lsid) ++ beBytes 4 ec ++ dbg).drop 8 =
          dbg := drop_len_append 8 _ _ (by simp [beBytes_length])
      simp only [frameType, EncodeFramePayload, DecodeFramePayload, hc, if_false,
        htake4, hdrop4, htake4b, hdrop8, readBE_beBytes_four r lsid hlsid,
        bitWord_top r lsid hlsid, bitWord_mod r lsid hlsid,
        readBE_beBytes_of_lt 4 ec hec]
  | windowUpdate r incr =>
      obtain ⟨hpos, hlt⟩ := hwf
      have hW := readBE_beBytes_four r incr hlt
      have hc1 : ¬ ((beBytes 4 (bitWord r incr)).length ≠ 4) := by
        simp only [beBytes_length]
        omega
      have hc2 : ¬ (bitWord r incr % 2 ^ 31 = 0) := by
        rw [bitWord_mod r incr hlt]
        omega
      have hinc : ¬ (incr = 0) := by omega
      simp only [frameType, EncodeFramePayload, DecodeFramePayload, hc1, hc2, hinc,
        if_false, hW, bitWord_top r incr hlt, bitWord_mod r incr hlt]
  | continuation frag =>
      simp only [frameType, EncodeFramePayload, DecodeFramePayload]
theorem FRAME_TYPE.toNat_lt (ft : FRAME_TYPE) : ft.toNat < 256 := by
  cases ft <;> simp [FRAME_TYPE.toNat]

theorem FRAME_TYPE.ofWire_toNat (ft : FRAME_TYPE) :
    FRAME_TYPE.ofWire ft.toNat = some ft := by
  cases ft <;> rfl

theorem parseFrameHeader_serializeHeader (f : Frame) (P : List Nat)
    (hflb : f.flags < 256) (hsid : f.stream_id < 2 ^ 31)
    (hl24 : f.length < 256 ^ 3) :
    parseFrameHeader (serializeHeader f ++ P) =
      some ⟨f.length, (frameType f.payload).toNat, f.flags, f.reserved,
        f.stream_id⟩ := by
  have hblen : (serializeHeader f ++ P).length = 9 + P.length := by
    simp [serializeHeader_length]
  have htake3 : (serializeHeader f ++ P).take 3 = beBytes 3 f.length := by
    have e1 : serializeHeader f ++ P = beBytes 3 f.length ++
        (beBytes 1 (frameType f.payload).toNat ++ (beBytes 1 f.flags ++
          (beBytes 4 (bitWord f.reserved f.stream_id) ++ P))) := by
      simp [serializeHeader, List.append_assoc]
    rw [e1]
    exact take_len_append 3 _ _ (beBytes_length 3 _)
  have hdrop3 : ((serializeHeader f ++ P).drop 3).take 1 =
      [(frameType f.payload).toNat] := by
    have e1 : serializeHeader f ++ P = beBytes 3 f.length ++
        (beBytes 1 (frameType f.payload).toNat ++ (beBytes 1 f.flags ++
          (beBytes 4 (bitWord f.reserved f.stream_id) ++ P))) := by
      simp [serializeHeader, List.append_assoc]
    rw [e1, drop_len_append 3 _ _ (beBytes_length 3 _),
      beBytes_one _ (FRAME_TYPE.toNat_lt _)]
    exact take_len_append 1 _ _ rfl
  have hdrop4 : ((serializeHeader f ++ P).drop 4).take 1 = [f.flags] := by
    have e2 : serializeHeader f ++ P =
        (beBytes 3 f.length ++ beBytes 1 (frameType f.payload).toNat) ++
        (beBytes 1 f.flags ++
          (beBytes 4 (bitWord f.reserved f.stream_id) ++ P)) := by
      simp [serializeHeader, List.append_assoc]
    rw [e2, drop_len_append 4 _ _ (by simp [beBytes_length]),
      beBytes_one _ hflb]
    exact take_len_append 1 _ _ rfl
  have hdrop5 : ((serializeHeader f ++ P).drop 5).take 4 =
      beBytes 4 (bitWord f.reserved f.stream_id) := by
    have e3 : serializeHeader f ++ P =
        ((beBytes 3 f.length ++ beBytes 1 (frameType f.payload).toNat) ++
          beBytes 1 f.flags) ++
        (beBytes 4 (bitWord f.reserved f.stream_id) ++ P) := by
      simp [serializeHeader, List.append_assoc]
    rw [e3, drop_len_append 5 _ _ (by simp [beBytes_length])]
    exact take_len_append 4 _ _ (beBytes_length 4 _)
  rw [parseFrameHeader, if_neg (by rw [hblen]; omega)]
  rw [htake3, hdrop3, hdrop4, hdrop5, readBE_beBytes_of_lt 3 f.length hl24,
    readBE_singleton, readBE_singleton,
    readBE_beBytes_four f.reserved f.stream_id hsid,
    bitWord_mod f.reserved f.stream_id hsid]
  have htopbit := bitWord_top f.reserved f.stream_id hsid
  rw [htopbit]

theorem RecvFrame_EncodeFrame (f : Frame) (t1 t2 : Table)
    (hwf : WellFormedFor f t1) (hm : Mirrored t1 t2) :
    RecvFrame (EncodeFrame f t1) t2 = .ok f := by
  obtain ⟨hflb, hsid, hlen, hmax, hpwf⟩ := hwf
  have hup : UpdateLength f t1 = f := by
    cases f with
    | mk fl sid rsv len pl =>
        simp only [UpdateLength]
        simp only at hlen
        rw [← hlen]
  have henc : EncodeFrame f t1 =
      serializeHeader f ++ EncodeFramePayload f t1 := by
    rw [EncodeFrame, hup]
  have hPlen : (EncodeFramePayload f t1).length = f.length := by
    rw [EncodeFramePayload_length]
    exact hlen.symm
  have hl24 : f.length < 256 ^ 3 := by
    have h1 : f.length ≤ 16384 := hmax
    omega
  have hparse := parseFrameHeader_serializeHeader f (EncodeFramePayload f t1)
    hflb hsid hl24
  have hc1 : ¬ (MAX_FRAME_SIZE < f.length) := Nat.not_lt.mpr hmax
  have hdrop9 : (serializeHeader f ++ EncodeFramePayload f t1).drop 9 =
      EncodeFramePayload f t1 :=
    drop_len_append 9 _ _ (serializeHeader_length f)
  have hc2 : ¬ (((serializeHeader f ++ EncodeFramePayload f t1).drop 9).length <
      f.length) := by
    rw [hdrop9, hPlen]
    omega
  have htakeP : ((serializeHeader f ++ EncodeFramePayload f t1).drop 9).take
      f.length = EncodeFramePayload f t1 := by
    rw [hdrop9, ← hPlen, List.take_length]
  have hdecp := decode_encode_payload f t1 t2 hpwf hm
  rw [henc]
  simp only [RecvFrame, hparse, FRAME_TYPE.ofWire_toNat, hc1, hc2, if_false,
    htakeP, hdecp]

/-- A concrete HPACK encoder for witnesses: each abstract header field
`n` becomes `n` one-octets closed by a zero octet. -/
def unaryEnc : List HeaderFieldRepresentation → List Nat
  | [] => []
  | n :: rest => List.replicate n 1 ++ 0 :: unaryEnc rest

/-- The matching decoder: count one-octets until the closing zero. -/
def unaryDecAux : List Nat → Nat → Option (List HeaderFieldRepresentation)
  | [], 0 => some []
  | [], _ + 1 => none
  | 0 :: rest, k => Option.map (fun tail => k :: tail) (unaryDecAux rest 0)
  | 1 :: rest, k => unaryDecAux rest (k + 1)
  | _, _ => none

/-- A concrete HPACK table whose encoder and decoder mirror each other,
used to instantiate round-trip statements. -/
def unaryTable : Table :=
  { enc := unaryEnc, dec := fun l => unaryDecAux l 0, capacity := 4096 }

theorem unaryDecAux_replicate (n : Nat) (rest : List Nat) (k : Nat) :
    unaryDecAux (List.replicate n 1 ++ 0 :: rest) k =
      Option.map (fun tail => (k + n) :: tail) (unaryDecAux rest 0) := by
  induction n generalizing k with
  | zero => simp [unaryDecAux]
  | succ n ih =>
      rw [List.replicate_succ, List.cons_append]
      rw [show unaryDecAux (1 :: (List.replicate n 1 ++ 0 :: rest)) k =
        unaryDecAux (List.replicate n 1 ++ 0 :: rest) (k + 1) from rfl]
      rw [ih]
      have hk : k + 1 + n = k + (n + 1) := by omega
      rw [hk]

theorem unaryDec_unaryEnc (l : List HeaderFieldRepresentation) :
    unaryDecAux (unaryEnc l) 0 = some l := by
  induction l with
  | nil => rfl
  | cons n rest ih =>
      rw [unaryEnc, unaryDecAux_replicate, ih]
      simp

theorem unaryEnc_lt (l : List HeaderFieldRepresentation) :
    ∀ b ∈ unaryEnc l, b < 256 := by
  induction l with
  | nil => simp [unaryEnc]
  | cons n rest ih =>
      intro b hb
      rw [unaryEnc] at hb
      rcases List.mem_append.mp hb with hb | hb
      · have h1 := List.eq_of_mem_replicate hb
        omega
      · rcases List.mem_cons.mp hb with hb | hb
        · omega
        · exact ih b hb

theorem unaryTable_mirrored : Mirrored unaryTable unaryTable :=
  ⟨rfl, unaryDec_unaryEnc, fun l => unaryEnc_lt l⟩

/-- C1: for every well-formed frame record of any of the ten types,
decoding (`RecvFrame` dispatching to `DecodeFramePayload`) the bytes
produced by encoding it (`EncodeFrame` via `EncodeFramePayload`) yields a
record equal to the original, provided the HPACK table used for encoding
and the one used for decoding are mirrored tables with identical
capacities. -/
theorem C1_round_trip (f : Frame) (t1 t2 : Table)
    (hwf : WellFormedFor f t1) (hm : Mirrored t1 t2) :
    RecvFrame (EncodeFrame f t1) t2 = .ok f :=
  RecvFrame_EncodeFrame f t1 t2 hwf hm

/-- A concrete padded DATA frame used to instantiate the round trip. -/
abbrev c1Frame : Frame :=
  { flags := 8, stream_id := 1, reserved := false, length := 5,
    payload := .data 2 [65, 66] }

/-- Witness for C1: a concrete padded DATA frame round-trips through the
mirrored unary tables. -/
theorem C1_round_trip_witness :
    WellFormedFor c1Frame unaryTable ∧ Mirrored unaryTable unaryTable ∧
    RecvFrame (EncodeFrame c1Frame unaryTable) unaryTable = .ok c1Frame :=
  ⟨by decide, unaryTable_mirrored,
    C1_round_trip c1Frame unaryTable unaryTable (by decide) unaryTable_mirrored⟩

/-- C2: after encoding (whose payload serializer calls `UpdateLength`),
the serialized payload's byte count equals the record's cached length
field, and equals the total encoded byte count minus the 9-octet
header. -/
theorem C2_length_invariant (f : Frame) (t : Table) :
    (EncodeFramePayload (UpdateLength f t) t).length = (UpdateLength f t).length ∧
    (EncodeFrame f t).length = (EncodeFramePayload (UpdateLength f t) t).length + 9 := by
  constructor
  · rw [EncodeFramePayload_length]
    rfl
  · rw [EncodeFrame]
    simp only [List.length_append, serializeHeader_length]
    omega

/-- `SettingsFrame::SETTINGS_PARAMETERS` (frame.h lines 301-308): the
first enumerator is explicitly assigned 0x1 and the rest follow. -/
inductive SETTINGS_PARAMETERS
  | SETTINGS_HEADER_TABLE_SIZE
  | SETTINGS_ENABLE_PUSH
  | SETTINGS_MAX_CONCURRENT_STREAMS
  | SETTINGS_INITIAL_WINDOW_SIZE
  | SETTINGS_MAX_FRAME_SIZE
  | SETTINGS_MAX_HEADER_LIST_SIZE
  deriving DecidableEq, Repr

/-- The numeric value of each `SETTINGS_PARAMETERS` enumerator, as
assigned in frame.h (`SETTINGS_HEADER_TABLE_SIZE = 0x1`, consecutive). -/
def SETTINGS_PARAMETERS.toNat : SETTINGS_PARAMETERS → Nat
  | .SETTINGS_HEADER_TABLE_SIZE => 1
  | .SETTINGS_ENABLE_PUSH => 2
  | .SETTINGS_MAX_CONCURRENT_STREAMS => 3
  | .SETTINGS_INITIAL_WINDOW_SIZE => 4
  | .SETTINGS_MAX_FRAME_SIZE => 5
  | .SETTINGS_MAX_HEADER_LIST_SIZE => 6

/-- C3 counterexample: the visible enum does not assign ordinal 0 to
HEADER_TABLE_SIZE — frame.h assigns it 0x1. -/
theorem C3_counterexample :
    ¬ (SETTINGS_PARAMETERS.toNat .SETTINGS_HEADER_TABLE_SIZE = 0) := by
  decide

/-- C3 (amended): the enum assigns 0x1 to HEADER_TABLE_SIZE — identical
to its on-wire identifier — and for every SETTINGS entry drawn from the
enum, the serialized 16-bit wire identifier equals the enum value and
lies in the wire range 1..6. -/
theorem C3_enum_matches_wire (p : SETTINGS_PARAMETERS) (v : Nat) (t : Table)
    (fl sid : Nat) (rsv : Bool) (len : Nat) :
    SETTINGS_PARAMETERS.toNat .SETTINGS_HEADER_TABLE_SIZE = 1 ∧
    1 ≤ p.toNat ∧ p.toNat ≤ 6 ∧
    readBE ((EncodeFramePayload
      { flags := fl, stream_id := sid, reserved := rsv, length := len,
        payload := .settings [(p.toNat, v)] } t).take 2) = p.toNat := by
  have hb : 1 ≤ p.toNat ∧ p.toNat ≤ 6 := by
    cases p <;> simp [SETTINGS_PARAMETERS.toNat]
  refine ⟨rfl, hb.1, hb.2, ?_⟩
  have htake : (EncodeFramePayload
      { flags := fl, stream_id := sid, reserved := rsv, length := len,
        payload := .settings [(p.toNat, v)] } t).take 2 = beBytes 2 p.toNat := by
    simp only [EncodeFramePayload, encodeSettings]
    rw [List.append_assoc]
    exact take_len_append 2 _ _ (beBytes_length 2 _)
  rw [htake]
  exact readBE_beBytes_of_lt 2 p.toNat (by omega)

/-- Modelled from the spec: the fixed payload sizes of §4.4 — PRIORITY
5 octets, RST_STREAM 4, PING 8, WINDOW_UPDATE 4; `none` for the
variable-length types. -/
def fixedSize : FRAME_TYPE → Option Nat
  | .TYPE_PRIORITY_FRAME => some 5
  | .TYPE_RST_STREAM_FRAME => some 4
  | .TYPE_PING_FRAME => some 8
  | .TYPE_WINDOW_UPDATE_FRAME => some 4
  | _ => none

theorem decodePadding_error (p : Bool) (buff : List Nat) (e : FrameError)
    (h : decodePadding p buff = .error e) :
    e = .Truncated ∨ e = .MalformedPadding := by
  cases p with
  | false => simp [decodePadding] at h
  | true =>
      cases buff with
      | nil =>
          simp [decodePadding] at h
          exact Or.inl h.symm
      | cons b rest =>
          simp only [decodePadding] at h
          split at h
          · split at h
            · simp at h
              exact Or.inr h.symm
            · simp at h
          · simp at h

/-- The typed payload decoder returns `FrameSizeError` exactly for a
fixed-length type with the wrong payload length or a SETTINGS payload
whose length is not a multiple of six. -/
theorem DecodeFramePayload_size_error (ft : FRAME_TYPE) (fl : Nat)
    (buff : List Nat) (t : Table) :
    (DecodeFramePayload ft fl buff t = .error .FrameSizeError) ↔
      ((∃ k, fixedSize ft = some k ∧ buff.length ≠ k) ∨
       (ft = .TYPE_SETTINGS_FRAME ∧ buff.length % 6 ≠ 0)) := by
  cases ft with
  | TYPE_DATA_FRAME =>
      simp only [DecodeFramePayload, fixedSize]
      cases hdp : decodePadding (has_flags fl FLAG_PADDED) buff with
      | error e =>
          simp only [hdp]
          rcases decodePadding_error _ _ _ hdp with h1 | h1 <;> subst h1 <;> simp
      | ok pr =>
          simp only [hdp]
          simp
  | TYPE_HEADERS_FRAME =>
      simp only [DecodeFramePayload, fixedSize]
      cases hdp : decodePadding (has_flags fl FLAG_PADDED) buff with
      | error e =>
          simp only [hdp]
          rcases decodePadding_error _ _ _ hdp with h1 | h1 <;> subst h1 <;> simp
      | ok pr =>
          simp only [hdp]
          split
          · split
            · simp
            · split <;> simp
          · split <;> simp
  | TYPE_PRIORITY_FRAME =>
      simp only [DecodeFramePayload, fixedSize]
      by_cases hk : buff.length = 5
      · rw [if_neg (by omega)]
        simp [hk]
      · rw [if_pos (by omega)]
        simp [hk]
  | TYPE_RST_STREAM_FRAME =>
      simp only [DecodeFramePayload, fixedSize]
      by_cases hk : buff.length = 4
      · rw [if_neg (by omega)]
        simp [hk]
      · rw [if_pos (by omega)]
        simp [hk]
  | TYPE_SETTINGS_FRAME =>
      simp only [DecodeFramePayload, fixedSize]
      by_cases h6 : buff.length % 6 = 0
      · rw [if_neg (by omega)]
        split <;> simp [h6]
      · rw [if_pos (by omega)]
        simp [h6]
  | TYPE_PUSH_PROMISE_FRAME =>
      simp only [DecodeFramePayload, fixedSize]
      cases hdp : decodePadding (has_flags fl FLAG_PADDED) buff with
      | error e =>
          simp only [hdp]
          rcases decodePadding_error _ _ _ hdp with h1 | h1 <;> subst h1 <;> simp
      | ok pr =>
          simp only [hdp]
          split <;> simp
  | TYPE_PING_FRAME =>
      simp only [DecodeFramePayload, fixedSize]
      by_cases hk : buff.length = 8
      · rw [if_neg (by omega)]
        simp [hk]
      · rw [if_pos (by omega)]
        simp [hk]
  | TYPE_GOAWAY_FRAME =>
      simp only [DecodeFramePayload, fixedSize]
      split <;> simp
  | TYPE_WINDOW_UPDATE_FRAME =>
      simp only [DecodeFramePayload, fixedSize]
      by_cases hk : buff.length = 4
      · rw [if_neg (by omega)]
        split <;> simp [hk]
      · rw [if_pos (by omega)]
        simp [hk]
  | TYPE_CONTINUATION_FRAME =>
      simp only [DecodeFramePayload, fixedSize]
      simp

theorem parseFrameHeader_build (L ty fl sidW : Nat) (P : List Nat)
    (hty : ty < 256) (hfl : fl < 256) (hL : L < 256 ^ 3) :
    parseFrameHeader
      (beBytes 3 L ++ beBytes 1 ty ++ beBytes 1 fl ++ beBytes 4 sidW ++ P) =
      some ⟨L, ty, fl, decide (2 ^ 31 ≤ readBE (beBytes 4 sidW)),
        readBE (beBytes 4 sidW) % 2 ^ 31⟩ := by
  have hblen :
      (beBytes 3 L ++ beBytes 1 ty ++ beBytes 1 fl ++ beBytes 4 sidW ++ P).length =
      9 + P.length := by
    simp [beBytes_length]
    omega
  have e0 : beBytes 3 L ++ beBytes 1 ty ++ beBytes 1 fl ++ beBytes 4 sidW ++ P =
      beBytes 3 L ++ (beBytes 1 ty ++ (beBytes 1 fl ++ (beBytes 4 sidW ++ P))) := by
    simp [List.append_assoc]
  have htake3 :
      (beBytes 3 L ++ beBytes 1 ty ++ beBytes 1 fl ++ beBytes 4 sidW ++ P).take 3 =
      beBytes 3 L := by
    rw [e0]
    exact take_len_append 3 _ _ (beBytes_length 3 _)
  have hdrop3 :
      ((beBytes 3 L ++ beBytes 1 ty ++ beBytes 1 fl ++ beBytes 4 sidW ++ P).drop 3).take 1 =
      [ty] := by
    rw [e0, drop_len_append 3 _ _ (beBytes_length 3 _), beBytes_one _ hty]
    exact take_len_append 1 _ _ rfl
  have hdrop4 :
      ((beBytes 3 L ++ beBytes 1 ty ++ beBytes 1 fl ++ beBytes 4 sidW ++ P).drop 4).take 1 =
      [fl] := by
    have e1 : beBytes 3 L ++ beBytes 1 ty ++ beBytes 1 fl ++ beBytes 4 sidW ++ P =
        (beBytes 3 L ++ beBytes 1 ty) ++ (beBytes 1 fl ++ (beBytes 4 sidW ++ P)) := by
      simp [List.append_assoc]
    rw [e1, drop_len_append 4 _ _ (by simp [beBytes_length]), beBytes_one _ hfl]
    exact take_len_append 1 _ _ rfl
  have hdrop5 :
      ((beBytes 3 L ++ beBytes 1 ty ++ beBytes 1 fl ++ beBytes 4 sidW ++ P).drop 5).take 4 =
      beBytes 4 sidW := by
    have e2 : beBytes 3 L ++ beBytes 1 ty ++ beBytes 1 fl ++ beBytes 4 sidW ++ P =
        ((beBytes 3 L ++ beBytes 1 ty) ++ beBytes 1 fl) ++ (beBytes 4 sidW ++ P) := by
      simp [List.append_assoc]
    rw [e2, drop_len_append 5 _ _ (by simp [beBytes_length])]
    exact take_len_append 4 _ _ (beBytes_length 4 _)
  rw [parseFrameHeader, if_neg (by rw [hblen]; omega)]
  rw [htake3, hdrop3, hdrop4, hdrop5, readBE_beBytes_of_lt 3 L hL,
    readBE_singleton, readBE_singleton]

/-- C4: a received frame fails with `FrameSizeError` exactly when the
header length field exceeds `MAX_FRAME_SIZE` (16384 accepted, 16385
rejected), or a fixed-length type receives a payload of any other length
(PRIORITY 5, RST_STREAM 4, PING 8, WINDOW_UPDATE 4), or a SETTINGS
payload length is not a multiple of six. -/
theorem C4_frame_size_error (ft : FRAME_TYPE) (L fl sidW : Nat)
    (payload : List Nat) (t : Table) (hL : L < 256 ^ 3) (hfl : fl < 256)
    (hlen : payload.length = L) :
    (RecvFrame
        (beBytes 3 L ++ beBytes 1 ft.toNat ++ beBytes 1 fl ++ beBytes 4 sidW ++
          payload) t = .error .FrameSizeError) ↔
      (MAX_FRAME_SIZE < L ∨ (∃ k, fixedSize ft = some k ∧ L ≠ k) ∨
        (ft = .TYPE_SETTINGS_FRAME ∧ L % 6 ≠ 0)) := by
  have hparse := parseFrameHeader_build L ft.toNat fl sidW payload
    (FRAME_TYPE.toNat_lt ft) hfl hL
  have hdrop9 :
      (beBytes 3 L ++ beBytes 1 ft.toNat ++ beBytes 1 fl ++ beBytes 4 sidW ++
        payload).drop 9 = payload :=
    drop_len_append 9 _ _ (by simp [beBytes_length])
  by_cases hmax : MAX_FRAME_SIZE < L
  · have hmax' : (MAX_FRAME_SIZE < L) = True := eq_true hmax
    simp only [RecvFrame, hparse, FRAME_TYPE.ofWire_toNat, hmax', if_true]
    simp [hmax]
  · have hmax' : (MAX_FRAME_SIZE < L) = False := eq_false hmax
    have hpl' : (payload.length < L) = False := eq_false (by omega)
    have htakeL : payload.take L = payload := by
      rw [← hlen]
      exact List.take_length payload
    have hpl := DecodeFramePayload_size_error ft fl payload t
    rw [hlen] at hpl
    cases hres : DecodeFramePayload ft fl payload t with
    | error err =>
        rw [hres] at hpl
        simp only [Except.error.injEq] at hpl
        simp only [RecvFrame, hparse, FRAME_TYPE.ofWire_toNat, hmax', if_false,
          hdrop9, hpl', htakeL, hres, Except.error.injEq]
        rw [hpl]
        simp [hmax]
    | ok p =>
        rw [hres] at hpl
        simp only [RecvFrame, hparse, FRAME_TYPE.ofWire_toNat, hmax', if_false,
          hdrop9, hpl', htakeL, hres]
        simp at hpl
        simp [hmax]
        exact hpl

/-- Witness for C4: a 7-octet PING payload is rejected with
`FrameSizeError` (its fixed size is 8). -/
theorem C4_frame_size_error_witness :
    RecvFrame
      (beBytes 3 7 ++ beBytes 1 FRAME_TYPE.TYPE_PING_FRAME.toNat ++ beBytes 1 0 ++
        beBytes 4 0 ++ List.replicate 7 0) unaryTable = .error .FrameSizeError :=
  (C4_frame_size_error .TYPE_PING_FRAME 7 0 0 (List.replicate 7 0) unaryTable
    (by decide) (by decide) (by simp)).mpr
    (Or.inr (Or.inl ⟨8, by decide, by decide⟩))

/-- C5: for DATA, HEADERS and PUSH_PROMISE frames with the PADDED flag,
decoding fails with `MalformedPadding` exactly when the pad-length octet
is at least the remaining payload length; when it is smaller, the
trailing `pad_length` octets are ignored regardless of content. -/
theorem C5_malformed_padding (ft : FRAME_TYPE) (flags p : Nat)
    (rest : List Nat) (t : Table)
    (hft : ft = .TYPE_DATA_FRAME ∨ ft = .TYPE_HEADERS_FRAME ∨
      ft = .TYPE_PUSH_PROMISE_FRAME)
    (hpad : has_flags flags FLAG_PADDED = true) :
    ((DecodeFramePayload ft flags (p :: rest) t = .error .MalformedPadding) ↔
      rest.length ≤ p) ∧
    (∀ rest2 : List Nat, rest2.length = rest.length →
      rest2.take (rest.length - p) = rest.take (rest.length - p) →
      DecodeFramePayload ft flags (p :: rest2) t =
        DecodeFramePayload ft flags (p :: rest) t) := by
  constructor
  · by_cases hc : rest.length ≤ p
    · have hdp : decodePadding true (p :: rest) = .error .MalformedPadding := by
        simp [decodePadding, hc]
      rcases hft with h | h | h <;> subst h <;>
        simp [DecodeFramePayload, hpad, hdp, hc]
    · have hdp : decodePadding true (p :: rest) =
          .ok (p, rest.take (rest.length - p)) := by
        simp [decodePadding, hc]
      rcases hft with h | h | h <;> subst h <;>
          simp only [DecodeFramePayload, hpad, hdp] <;>
          (repeat' split) <;> simp [hc]
  · intro rest2 hlen2 htake2
    have hdp2 : decodePadding true (p :: rest2) = decodePadding true (p :: rest) := by
      have h1 : decodePadding true (p :: rest2) =
          if rest2.length ≤ p then .error .MalformedPadding
          else .ok (p, rest2.take (rest2.length - p)) := rfl
      have h2 : decodePadding true (p :: rest) =
          if rest.length ≤ p then .error .MalformedPadding
          else .ok (p, rest.take (rest.length - p)) := rfl
      rw [h1, h2, hlen2, htake2]
    rcases hft with h | h | h <;> subst h <;>
      simp only [DecodeFramePayload, hpad, hdp2]

/-- Witness for C5: a padded DATA payload whose pad-length octet 5
exceeds the 3 remaining octets, at the concrete instance of the claim. -/
theorem C5_malformed_padding_witness :
    ((DecodeFramePayload .TYPE_DATA_FRAME 8 (5 :: [1, 2, 3]) unaryTable =
        .error .MalformedPadding) ↔ ([1, 2, 3] : List Nat).length ≤ 5) ∧
    (∀ rest2 : List Nat, rest2.length = ([1, 2, 3] : List Nat).length →
      rest2.take (([1, 2, 3] : List Nat).length - 5) =
        ([1, 2, 3] : List Nat).take (([1, 2, 3] : List Nat).length - 5) →
      DecodeFramePayload .TYPE_DATA_FRAME 8 (5 :: rest2) unaryTable =
        DecodeFramePayload .TYPE_DATA_FRAME 8 (5 :: [1, 2, 3]) unaryTable) :=
  C5_malformed_padding .TYPE_DATA_FRAME 8 5 [1, 2, 3] unaryTable (Or.inl rfl)
    (by decide)

/-- C6: a received frame whose type octet is outside 0..9 is rejected
with `UnknownType`, which is classified non-fatal so the caller can
discard the payload and continue on the connection. -/
theorem C6_unknown_type (b0 b1 b2 tb fl : Nat) (rest : List Nat) (t : Table)
    (hlen : 5 ≤ rest.length) (htb : 10 ≤ tb) :
    RecvFrame (b0 :: b1 :: b2 :: tb :: fl :: rest) t = .error .UnknownType ∧
    FrameError.isFatal .UnknownType = false := by
  have hofw : FRAME_TYPE.ofWire tb = none := by
    obtain ⟨m, rfl⟩ : ∃ m, tb = m + 10 := ⟨tb - 10, by omega⟩
    rfl
  have hc9 : ¬ (rest.length + 1 + 1 + 1 + 1 + 1 < 9) := by omega
  refine ⟨?_, rfl⟩
  simp [RecvFrame, parseFrameHeader, hc9, hofw, readBE_singleton]

/-- Witness for C6: type octet 10 on an otherwise plausible header. -/
theorem C6_unknown_type_witness :
    RecvFrame (0 :: 0 :: 0 :: 10 :: 0 :: List.replicate 5 0) unaryTable =
      .error .UnknownType ∧
    FrameError.isFatal .UnknownType = false :=
  C6_unknown_type 0 0 0 10 0 (List.replicate 5 0) unaryTable (by simp) (by decide)

/-- C7: a 4-octet WINDOW_UPDATE payload whose 31-bit increment is zero
fails with `ProtocolError`; a positive increment decodes successfully and
`window_size_increment` returns exactly that value. -/
theorem C7_window_update (flags : Nat) (buff : List Nat) (t : Table)
    (h4 : buff.length = 4) :
    (readBE buff % 2 ^ 31 = 0 →
      DecodeFramePayload .TYPE_WINDOW_UPDATE_FRAME flags buff t =
        .error .ProtocolError) ∧
    (0 < readBE buff % 2 ^ 31 →
      DecodeFramePayload .TYPE_WINDOW_UPDATE_FRAME flags buff t =
        .ok (.windowUpdate (decide (2 ^ 31 ≤ readBE buff))
          (readBE buff % 2 ^ 31)) ∧
      window_size_increment
        { flags := flags, stream_id := 0, reserved := false, length := 4,
          payload := .windowUpdate (decide (2 ^ 31 ≤ readBE buff))
            (readBE buff % 2 ^ 31) } = readBE buff % 2 ^ 31) := by
  have hc : ¬ (buff.length ≠ 4) := by omega
  constructor
  · intro h0
    have h0' : readBE buff % 2147483648 = 0 := by omega
    simp [DecodeFramePayload, hc, h0']
  · intro hpos
    have hnz : ¬ (readBE buff % 2147483648 = 0) := by omega
    refine ⟨?_, rfl⟩
    simp [DecodeFramePayload, hc, hnz]

/-- Witness for C7: the 4-octet payload 00 00 00 05 giving increment 5. -/
theorem C7_window_update_witness :
    (readBE [0, 0, 0, 5] % 2 ^ 31 = 0 →
      DecodeFramePayload .TYPE_WINDOW_UPDATE_FRAME 0 [0, 0, 0, 5] unaryTable =
        .error .ProtocolError) ∧
    (0 < readBE [0, 0, 0, 5] % 2 ^ 31 →
      DecodeFramePayload .TYPE_WINDOW_UPDATE_FRAME 0 [0, 0, 0, 5] unaryTable =
        .ok (.windowUpdate (decide (2 ^ 31 ≤ readBE [0, 0, 0, 5]))
          (readBE [0, 0, 0, 5] % 2 ^ 31)) ∧
      window_size_increment
        { flags := 0, stream_id := 0, reserved := false, length := 4,
          payload := .windowUpdate (decide (2 ^ 31 ≤ readBE [0, 0, 0, 5]))
            (readBE [0, 0, 0, 5] % 2 ^ 31) } = readBE [0, 0, 0, 5] % 2 ^ 31) :=
  C7_window_update 0 [0, 0, 0, 5] unaryTable (by decide)

/-- A concrete PING frame whose flags byte already has bit 0x1 set. -/
abbrev c8Frame : Frame :=
  { flags := 1, stream_id := 0, reserved := false, length := 8,
    payload := .ping 0 }

/-- C8 counterexample: on a record whose flags byte already contains the
masked bit, `set_flags` then `clear_flags` does not restore the original
flags byte (flags 0x1, mask 0x1 ends at 0x0). -/
theorem C8_counterexample : clear_flags (set_flags c8Frame 1) 1 ≠ c8Frame := by
  decide

theorem lor_land_not (fl m : Nat) (hf : fl < 256) (hm : m < 256)
    (hdisj : fl &&& m = 0) : (fl ||| m) &&& (255 ^^^ m) = fl := by
  apply Nat.eq_of_testBit_eq
  intro i
  have h255 : Nat.testBit 255 i = decide (i < 8) := by
    have h8 : (255 : Nat) = 2 ^ 8 - 1 := by norm_num
    rw [h8, Nat.testBit_two_pow_sub_one]
  have hdb : (fl.testBit i && m.testBit i) = false := by
    have h0 := congrArg (fun x => Nat.testBit x i) hdisj
    simpa [Nat.testBit_land] using h0
  rw [Nat.testBit_land, Nat.testBit_lor, Nat.testBit_xor, h255]
  by_cases hi : i < 8
  · have hd : decide (i < 8) = true := by simp [hi]
    rw [hd]
    cases hfl1 : fl.testBit i <;> cases hm1 : m.testBit i <;> simp_all
  · have hp : (256 : Nat) ≤ 2 ^ i := by
      calc (256 : Nat) = 2 ^ 8 := by norm_num
      _ ≤ 2 ^ i := Nat.pow_le_pow_right (by omega) (by omega)
    have hflb : fl.testBit i = false := Nat.testBit_lt_two_pow (by omega)
    have hmb : m.testBit i = false := Nat.testBit_lt_two_pow (by omega)
    simp [hi, hflb, hmb]

/-- C8 (amended): `set_flags` with a mask followed by `clear_flags` with
the same mask restores the original flags byte, provided the record's
flags byte is an octet and had none of the masked bits set (if a masked
bit was already set, clearing erases it, as the counterexample shows). -/
theorem C8_flag_set_clear (f : Frame) (m : Nat) (hf : f.flags < 256)
    (hm : m < 256) (hdisj : f.flags &&& m = 0) :
    clear_flags (set_flags f m) m = f := by
  cases f with
  | mk fl sid rsv len pl =>
      simp only [set_flags, clear_flags]
      simp only at hf hdisj
      rw [lor_land_not fl m hf hm hdisj]

/-- Witness for C8 (amended): flags byte 0x4, mask 0x8. -/
theorem C8_flag_set_clear_witness :
    clear_flags (set_flags
      { flags := 4, stream_id := 0, reserved := false, length := 8,
        payload := .ping 0 } 8) 8 =
      { flags := 4, stream_id := 0, reserved := false, length := 8,
        payload := .ping 0 } :=
  C8_flag_set_clear _ 8 (by decide) (by decide) (by decide)

/-- C9: decoding a 9-octet header with the reserved bit set yields the
same stream identifier as with the reserved bit clear (the bit is never
folded into the 31-bit stream id), and on encode the fifth serialized
octet has its top bit written as 0 when the record's reserved flag is
unset and as 1 only when the caller explicitly set it. -/
theorem C9_reserved_bit (b0 b1 b2 b3 b4 b5 b6 b7 b8 : Nat) (f : Frame)
    (hb5 : b5 < 256) (hb6 : b6 < 256) (hb7 : b7 < 256) (hb8 : b8 < 256)
    (hsid : f.stream_id < 2 ^ 31) :
    (Option.map FrameHeader.stream_id
        (parseFrameHeader [b0, b1, b2, b3, b4, b5, b6, b7, b8]) =
      Option.map FrameHeader.stream_id
        (parseFrameHeader [b0, b1, b2, b3, b4, b5 % 128, b6, b7, b8])) ∧
    ((f.reserved = false → ((serializeHeader f).drop 5).headD 0 < 128) ∧
     (f.reserved = true → 128 ≤ ((serializeHeader f).drop 5).headD 0)) := by
  constructor
  · simp [parseFrameHeader, readBE]
    omega
  · have hdrop : (serializeHeader f).drop 5 =
        beBytes 4 (bitWord f.reserved f.stream_id) := by
      have e : serializeHeader f =
          ((beBytes 3 f.length ++ beBytes 1 (frameType f.payload).toNat) ++
            beBytes 1 f.flags) ++
          beBytes 4 (bitWord f.reserved f.stream_id) := by
        simp [serializeHeader, List.append_assoc]
      rw [e]
      exact drop_len_append 5 _ _ (by simp [beBytes_length])
    rw [hdrop]
    constructor
    · intro hres
      simp [beBytes, bitWord, hres]
      omega
    · intro hres
      simp [beBytes, bitWord, hres]
      omega

/-- Witness for C9: byte 200 (top bit set) versus 200 % 128 = 72, and
the concrete DATA frame from C1 with reserved unset. -/
theorem C9_reserved_bit_witness :
    (Option.map FrameHeader.stream_id
        (parseFrameHeader [0, 0, 5, 0, 0, 200, 1, 2, 3]) =
      Option.map FrameHeader.stream_id
        (parseFrameHeader [0, 0, 5, 0, 0, 200 % 128, 1, 2, 3])) ∧
    ((c1Frame.reserved = false →
        ((serializeHeader c1Frame).drop 5).headD 0 < 128) ∧
     (c1Frame.reserved = true →
        128 ≤ ((serializeHeader c1Frame).drop 5).headD 0)) :=
  C9_reserved_bit 0 0 5 0 0 200 1 2 3 c1Frame (by decide) (by decide)
    (by decide) (by decide) (by decide)

/-- C10: `set_window_size_increment` takes a signed `int` while the
stored field and getter are 32-bit unsigned — the stored value is the
argument reduced modulo 2^32, so a negative argument is silently stored
and returned as a value of at least 2^31 instead of being rejected. -/
theorem C10_signed_increment (r : Bool) (old fl sid len : Nat) (rsv : Bool)
    (n : Int) (hlow : -(2 ^ 31) ≤ n) (hhigh : n < 2 ^ 31) :
    window_size_increment (set_window_size_increment
      { flags := fl, stream_id := sid, reserved := rsv, length := len,
        payload := .windowUpdate r old } n) = (n % 2 ^ 32).toNat ∧
    (n < 0 → 2 ^ 31 ≤ window_size_increment (set_window_size_increment
      { flags := fl, stream_id := sid, reserved := rsv, length := len,
        payload := .windowUpdate r old } n)) := by
  refine ⟨rfl, ?_⟩
  intro hneg
  show 2 ^ 31 ≤ (n % 2 ^ 32).toNat
  omega

/-- Witness for C10: the argument -1 stores 2^32 - 1. -/
theorem C10_signed_increment_witness :
    window_size_increment (set_window_size_increment
      { flags := 0, stream_id := 0, reserved := false, length := 4,
        payload := .windowUpdate false 7 } (-1)) = ((-1 : Int) % 2 ^ 32).toNat ∧
    ((-1 : Int) < 0 → 2 ^ 31 ≤ window_size_increment (set_window_size_increment
      { flags := 0, stream_id := 0, reserved := false, length := 4,
        payload := .windowUpdate false 7 } (-1))) :=
  C10_signed_increment false 7 0 0 4 false (-1) (by decide) (by decide)

end Lhttp2
